import Mathlib

/-!
Verification development for the process-execution core of the `mob` build
orchestrator (`src/process.h`, `src/process.cpp`).

The C++ code is shallowly embedded: the fluent `process` configuration object
becomes a Lean structure updated functionally; the OS (wait results, pipe read
results, exit codes, process ids) is modelled as explicit oracle inputs; fatal
`bail_out` exceptions become `Except String`; the cross-thread interrupt flag
is modelled by recording, in each wait event, the value of the flag that the
`join` loop observes during that iteration (the flag is only ever set to
`true` by `interrupt()`).
-/

namespace mob

/-- The `context::level` (only the levels used by `process`). -/
inductive Level
  | trace
  | debug
  | error
  deriving DecidableEq, Repr

/-- The `context::reason` (only the reasons used by `process`). -/
inductive Reason
  | cmd
  | std_out
  | std_err
  deriving DecidableEq, Repr

/-- One event handed to the logging collaborator (`context`): reason, level, text. -/
structure LogEvent where
  r : Reason
  lv : Level
  text : String
  deriving DecidableEq, Repr

/-! ### Process flags (`process::flags_t`), bit masks as in the source. -/

def noflags : Nat := 0x00
def allow_failure : Nat := 0x01
def terminate_on_interrupt : Nat := 0x02

/-- Bit test `f & m` as used on `flags_t` values. -/
def hasFlag (f m : Nat) : Bool := f &&& m != 0

/-! ### Argument flags (`process::arg_flags`), bit masks as in the source. -/

def noargflags : Nat := 0x00
def verbose : Nat := 0x01
def quiet : Nat := 0x02
def nospace : Nat := 0x04
def quote : Nat := 0x08

/-- Bit test `f & m` as used on `arg_flags` values. -/
def hasArgFlag (f m : Nat) : Bool := f &&& m != 0

/--
The `process` configuration/supervisor object.  Fields mirror the C++ data
members; `fs::path` values are carried as strings, the environment snapshot
as an association list.  `handle` abstracts `impl_.handle` to whether a child
handle is currently owned.  The stream filter callbacks and the `context*`
pointer are not represented (no claim depends on them).  Default field values
are exactly the ones established by `process::process`.
-/
structure process where
  name_ : String := ""
  bin_ : String := ""
  cwd_ : String := ""
  flags_ : Nat := noflags
  stdout_level_ : Level := Level.trace
  stderr_level_ : Level := Level.error
  env_ : List (String × String) := []
  raw_ : String := ""
  cmd_ : String := ""
  handle : Bool := false
  code_ : Nat := 0
  deriving DecidableEq, Repr

/-- The `process::process`: the freshly constructed object. -/
def process.init : process := {}

/-- The `process::raw`: spec whose resolved command is exactly `cmd`. -/
def process.raw (cmd : String) : process := { raw_ := cmd }

/-- The `process::name(name)` setter. -/
def process.name (p : process) (n : String) : process := { p with name_ := n }

/-- The `process::binary(p)` setter. -/
def process.binary (p : process) (b : String) : process := { p with bin_ := b }

/-- The `process::cwd(p)` setter. -/
def process.cwd (p : process) (c : String) : process := { p with cwd_ := c }

/-- The `process::flags(f)` setter. -/
def process.flags (p : process) (f : Nat) : process := { p with flags_ := f }

/-- The `process::env(e)` setter. -/
def process.env (p : process) (e : List (String × String)) : process :=
  { p with env_ := e }

/-- The `process::make_cmd`: the raw override if set, else `"<bin>"` plus the
accumulated argument text. -/
def process.make_cmd (p : process) : String :=
  if p.raw_ ≠ "" then p.raw_ else "\"" ++ p.bin_ ++ "\"" ++ p.cmd_

/-- The `process::make_name`: the explicit name if set, else the rendered command. -/
def process.make_name (p : process) : String :=
  if p.name_ ≠ "" then p.name_ else p.make_cmd

/-- The `process::pipe_into`: overwrite `raw_` with `make_cmd() + " | " + p.make_cmd()`. -/
def process.pipe_into (p q : process) : process :=
  { p with raw_ := p.make_cmd ++ " | " ++ q.make_cmd }

/--
The variadic `process::pipe(p1, p2, ps...)` template, with the tail packed as
a list.  The source makes a recursive call `pipe(r, ps...)` whose returned
value is not used (`r` itself is returned unchanged afterwards); the model
reproduces that discarded call faithfully.
-/
def process.pipe : process → List process → process
  | p, [] => p
  | p1, p2 :: ps =>
    let r := p1.pipe_into p2
    let _ := process.pipe r ps
    r

/--
Modelled from the spec: the composition `pipe(p1, …, pn)` as §4.3 describes
it — resolved command text `text(p1) + " | " + … + " | " + text(pn)`, all
non-command settings taken from `p1`.  Used to exhibit where the source's
variadic template diverges from this description.
-/
def pipeSpec : process → List process → process
  | p, [] => p
  | p1, p2 :: ps => pipeSpec (p1.pipe_into p2) ps

/-! ### Argument rendering (`process::add_arg`, `process::arg_to_string`,
`process::arg`).

`conf::log_trace()` — the global verbose-logging switch — is an external
collaborator and is passed in explicitly as `log_trace`. -/

/-- The overload set of `process::arg_to_string`: a C string / `std::string`,
an `fs::path`, or a `url`, each carried as its underlying text. -/
inductive ArgValue
  | str (s : String)
  | path (s : String)
  | url (s : String)
  deriving DecidableEq, Repr

/-- The `process::arg_to_string(v, force_quote)`: paths are always quoted; strings
and urls are quoted only when `force_quote` holds. -/
def arg_to_string : ArgValue → Bool → String
  | ArgValue.str s, true => "\"" ++ s ++ "\""
  | ArgValue.str s, false => s
  | ArgValue.path s, _ => "\"" ++ s ++ "\""
  | ArgValue.url s, true => "\"" ++ s ++ "\""
  | ArgValue.url s, false => s

/-- The `process::add_arg(k, v, f)`: inclusion gating on `verbose`/`quiet` against
the verbose-logging switch, then the join rule (empty key → value alone;
`nospace` or key ending in `=` → no separator; otherwise one space). -/
def process.add_arg (log_trace : Bool) (p : process) (k v : String) (f : Nat) :
    process :=
  if hasArgFlag f verbose && !log_trace then p
  else if hasArgFlag f quiet && log_trace then p
  else if k = "" && v = "" then p
  else if k = "" then { p with cmd_ := p.cmd_ ++ " " ++ v }
  else if hasArgFlag f nospace || k.back = '=' then
    { p with cmd_ := p.cmd_ ++ " " ++ k ++ v }
  else
    { p with cmd_ := p.cmd_ ++ " " ++ k ++ " " ++ v }

/-- The one-argument `process::arg(value, f)` template: empty key. -/
def process.arg1 (log_trace : Bool) (p : process) (v : ArgValue) (f : Nat) :
    process :=
  p.add_arg log_trace "" (arg_to_string v (hasArgFlag f quote)) f

/-- The two-argument `process::arg(name, value, f)` template. -/
def process.arg2 (log_trace : Bool) (p : process) (k : String) (v : ArgValue)
    (f : Nat) : process :=
  p.add_arg log_trace k (arg_to_string v (hasArgFlag f quote)) f

/-! ### The join loop (`process::join`).

Each loop iteration performs one `WaitForSingleObject` on the child handle and
reads the cross-thread interrupt flag at most once; a `WaitEvent` records the
oracle outcome of that iteration: the wait result, the exit code
`GetExitCodeProcess` would report, the flag value observed, and the process id
`GetProcessId` would return. -/

/-- One iteration's OS observations inside `process::join`. -/
inductive WaitEvent
  /-- The `WAIT_OBJECT_0`: the child exited with code `ec`; `intr` is the value of
  `impl_.interrupt` read in this iteration. -/
  | object0 (ec : Nat) (intr : Bool)
  /-- The `WAIT_TIMEOUT`; `intr` as above; `pid` is what `GetProcessId` returns if
  queried (0 = unresolvable). -/
  | timeout (intr : Bool) (pid : Nat)
  /-- The `WAIT_FAILED` with OS error `e`. -/
  | failed (e : Nat)
  deriving DecidableEq, Repr

/-- Termination actions the join loop can take on the child. -/
inductive JoinAction
  /-- The `TerminateProcess(handle, 0xffff)` — forced kill. -/
  | terminate
  /-- The `GenerateConsoleCtrlEvent(CTRL_BREAK_EVENT, pid)` — graceful break signal
  to the child's process group. -/
  | ctrlBreak (pid : Nat)
  deriving DecidableEq, Repr

/-- How `process::join` ended. -/
inductive JoinOutcome
  /-- returned normally -/
  | ok
  /-- The `bail_out` with this message (a fatal exception) -/
  | fatal (msg : String)
  /-- the event trace was exhausted before the loop ended (modelling artifact:
  the real loop would still be polling) -/
  | incomplete
  deriving DecidableEq, Repr

/-- Observable result of one `process::join` call: the outcome, the final
value of `code_`, the termination actions taken in order, and a ghost flag
recording whether the exit-code policy (the `code_ != 0` test) was reached. -/
structure JoinResult where
  outcome : JoinOutcome
  code : Nat
  actions : List JoinAction
  policyEvaluated : Bool
  deriving DecidableEq, Repr

/-- The `for (;;)` loop body of `process::join`.  `interrupted` is the local
that ensures the graceful break is sent at most once; `acc` accumulates the
termination actions in reverse.  (`read_pipes()` drains both channels each
iteration; it only produces log events and is not observed here.) -/
def joinLoop (fl : Nat) (nm : String) (code : Nat) (interrupted : Bool)
    (acc : List JoinAction) : List WaitEvent → JoinResult
  | [] => ⟨JoinOutcome.incomplete, code, acc.reverse, false⟩
  | WaitEvent.object0 ec intr :: _ =>
    if intr then ⟨JoinOutcome.ok, ec, acc.reverse, false⟩
    else if ec ≠ 0 then
      if hasFlag fl allow_failure then ⟨JoinOutcome.ok, ec, acc.reverse, true⟩
      else
        ⟨JoinOutcome.fatal (nm ++ " returned " ++ toString ec), ec,
          acc.reverse, true⟩
    else ⟨JoinOutcome.ok, ec, acc.reverse, true⟩
  | WaitEvent.timeout intr pid :: rest =>
    if intr && !interrupted then
      if hasFlag fl terminate_on_interrupt then
        ⟨JoinOutcome.ok, code, (JoinAction.terminate :: acc).reverse, false⟩
      else if pid = 0 then
        ⟨JoinOutcome.ok, code, (JoinAction.terminate :: acc).reverse, false⟩
      else
        joinLoop fl nm code true (JoinAction.ctrlBreak pid :: acc) rest
    else joinLoop fl nm code interrupted acc rest
  | WaitEvent.failed _ :: _ =>
    ⟨JoinOutcome.fatal "failed to wait on process", code, acc.reverse, false⟩

/-- The `process::join`: early return when no child handle is owned (never run, or
dry run); otherwise the polling loop.  On every path that leaves the loop the
handle is released and `code_` holds the loop's final value. -/
def process.join (p : process) (events : List WaitEvent) :
    JoinResult × process :=
  if p.handle = false then (⟨JoinOutcome.ok, p.code_, [], false⟩, p)
  else
    let r := joinLoop p.flags_ p.make_name p.code_ false [] events
    (r, { p with code_ := r.code, handle := false })

/-- The `process::exit_code`: `static_cast<int>` of the stored `DWORD`. -/
def toInt32 (n : Nat) : Int :=
  if n % 2 ^ 32 < 2 ^ 31 then ((n % 2 ^ 32 : Nat) : Int)
  else ((n % 2 ^ 32 : Nat) : Int) - 2 ^ 32

/-- The `process::exit_code() const`. -/
def process.exit_code (p : process) : Int := toInt32 p.code_

/-- The `process::~process`: performs the implicit `join()`; `catch(...)`
discards every exception, fatal or not. -/
def process.destruct (p : process) (events : List WaitEvent) :
    Except String Unit :=
  match (p.join events).1.outcome with
  | JoinOutcome.fatal _ => Except.ok ()
  | _ => Except.ok ()

/-! ### `process::run` / `process::do_run`.

`conf::dry()` — the global dry-run switch — is passed in as `dry`.  The OS
oracle for `do_run` is `spawn_ok` (whether `CreateProcessA` succeeds) and
`pid` (the child process id it reports); the pipe/event-creation bail-outs of
`async_pipe::create` are subsumed in `spawn_ok` (no claim distinguishes
them).  `comspec` is the `COMSPEC` interpreter path. -/

/-- Observable result of a successful `process::run`. -/
structure RunResult where
  logs : List LogEvent
  spawned : Bool
  post : process
  deriving DecidableEq, Repr

/-- The `process::run`: log the cwd change (if any) and the resolved command; in
dry-run mode stop there, otherwise `do_run` spawns the child. -/
def process.run (dry : Bool) (comspec : String) (spawn_ok : Bool) (pid : Nat)
    (p : process) : Except String RunResult :=
  let logs0 : List LogEvent :=
    if p.cwd_ ≠ "" then [⟨Reason.cmd, Level.debug, "> cd " ++ p.cwd_⟩] else []
  let what := p.make_cmd
  let logs1 := logs0 ++ [⟨Reason.cmd, Level.debug, "> " ++ what⟩]
  if dry then Except.ok ⟨logs1, false, p⟩
  else
    let logs2 := logs1 ++ [⟨Reason.cmd, Level.trace, "creating process"⟩]
    if spawn_ok then
      Except.ok
        ⟨logs2 ++ [⟨Reason.cmd, Level.trace, "pid " ++ toString pid⟩], true,
          { p with handle := true }⟩
    else Except.error ("failed to start '" ++ comspec ++ "'")

/-! ### `async_pipe` — the asynchronous output channel.

The parent-side state that the read logic branches on is the `pending_` flag;
the OS handles, the 50000-byte buffer and the `OVERLAPPED` block are owned
resources whose observable content (the bytes a completed read delivers) is
supplied by the oracles below. -/

/-- The `async_pipe` parent-side read state.  The constructor clears `pending_`. -/
structure async_pipe where
  pending_ : Bool := false
  deriving DecidableEq, Repr

/-- Oracle outcome of the `::ReadFile` call in `async_pipe::try_read`. -/
inductive ReadFileRes
  /-- returned TRUE with these bytes in the buffer -/
  | ok (data : String)
  /-- FALSE with `ERROR_IO_PENDING` -/
  | ioPending
  /-- FALSE with `ERROR_BROKEN_PIPE` -/
  | brokenPipe
  /-- FALSE with any other error code -/
  | otherError (e : Nat)
  deriving DecidableEq, Repr

/-- Oracle outcome of the `WaitForSingleObject` call in
`async_pipe::check_pending`. -/
inductive WaitRes
  | object0
  | timeout
  | failed (e : Nat)
  deriving DecidableEq, Repr

/-- Whether a `WaitRes` is `WAIT_FAILED`. -/
def WaitRes.isFailed : WaitRes → Bool
  | WaitRes.failed _ => true
  | _ => false

/-- Oracle outcome of the `::GetOverlappedResult` call in
`async_pipe::check_pending`. -/
inductive OverlappedRes
  /-- returned TRUE with these bytes -/
  | ok (data : String)
  /-- FALSE with `ERROR_IO_INCOMPLETE` -/
  | ioIncomplete
  /-- FALSE with `WAIT_TIMEOUT` -/
  | waitTimeout
  /-- FALSE with `ERROR_BROKEN_PIPE` -/
  | brokenPipe
  /-- FALSE with any other error code -/
  | otherError (e : Nat)
  deriving DecidableEq, Repr

/-- Observable result of one `async_pipe::read` call: the returned bytes
(`{}` becomes `""`), the post state, and ghost counters for the number of
`::ReadFile` requests issued and `WaitForSingleObject` waits performed. -/
structure ReadOutcome where
  data : String
  pipe : async_pipe
  readRequests : Nat
  waits : Nat
  deriving DecidableEq, Repr

/-- The `async_pipe::try_read`: issue one `::ReadFile`.  Immediate completion
returns the bytes; `ERROR_IO_PENDING` marks the channel pending and returns
empty; `ERROR_BROKEN_PIPE` returns empty; anything else is fatal. -/
def async_pipe.try_read (pp : async_pipe) (rf : ReadFileRes) :
    Except String ReadOutcome :=
  match rf with
  | ReadFileRes.ok data => Except.ok ⟨data, pp, 1, 0⟩
  | ReadFileRes.ioPending => Except.ok ⟨"", { pp with pending_ := true }, 1, 0⟩
  | ReadFileRes.brokenPipe => Except.ok ⟨"", pp, 1, 0⟩
  | ReadFileRes.otherError _ => Except.error "async_pipe read failed"

/-- The `async_pipe::check_pending`: wait (bounded) on the completion event —
`WAIT_FAILED` is fatal — then poll `::GetOverlappedResult`.  Success clears
`pending_` and returns the bytes; `ERROR_IO_INCOMPLETE`, `WAIT_TIMEOUT` and
`ERROR_BROKEN_PIPE` return empty leaving `pending_` set; anything else is
fatal.  No new read request is issued. -/
def async_pipe.check_pending (pp : async_pipe) (w : WaitRes)
    (g : OverlappedRes) : Except String ReadOutcome :=
  if w.isFailed then Except.error "WaitForSingleObject in async_pipe failed"
  else
    match g with
    | OverlappedRes.ok data =>
      Except.ok ⟨data, { pp with pending_ := false }, 0, 1⟩
    | OverlappedRes.ioIncomplete => Except.ok ⟨"", pp, 0, 1⟩
    | OverlappedRes.waitTimeout => Except.ok ⟨"", pp, 0, 1⟩
    | OverlappedRes.brokenPipe => Except.ok ⟨"", pp, 0, 1⟩
    | OverlappedRes.otherError _ =>
      Except.error "GetOverlappedResult failed in async_pipe"

/-- The `async_pipe::read`: dispatch on `pending_`. -/
def async_pipe.read (pp : async_pipe) (rf : ReadFileRes) (w : WaitRes)
    (g : OverlappedRes) : Except String ReadOutcome :=
  if pp.pending_ then pp.check_pending w g else pp.try_read rf

/-! ## Helper lemmas -/

/-- Number of graceful break signals in an action list. -/
def countBreaks : List JoinAction → Nat
  | [] => 0
  | JoinAction.ctrlBreak _ :: r => countBreaks r + 1
  | JoinAction.terminate :: r => countBreaks r

theorem countBreaks_append (l1 l2 : List JoinAction) :
    countBreaks (l1 ++ l2) = countBreaks l1 + countBreaks l2 := by
  induction l1 with
  | nil => simp [countBreaks]
  | cons a l ih =>
    cases a with
    | terminate => simp [countBreaks, ih]
    | ctrlBreak pid =>
      simp only [List.cons_append, countBreaks, List.append_eq, ih]
      omega

theorem countBreaks_reverse (l : List JoinAction) :
    countBreaks l.reverse = countBreaks l := by
  induction l with
  | nil => rfl
  | cons a l ih =>
    cases a <;> simp [countBreaks, List.reverse_cons, countBreaks_append, ih]

/-- A poll-timeout iteration in which the interrupt flag reads `false` leaves
the join loop's state untouched. -/
theorem joinLoop_skip_quiet_timeouts (fl : Nat) (nm : String) (code : Nat)
    (b : Bool) (acc : List JoinAction) (pre evs : List WaitEvent)
    (h : ∀ e ∈ pre, ∃ pid, e = WaitEvent.timeout false pid) :
    joinLoop fl nm code b acc (pre ++ evs) = joinLoop fl nm code b acc evs := by
  induction pre with
  | nil => rfl
  | cons e pre ih =>
    obtain ⟨pid, rfl⟩ := h e (List.mem_cons_self e pre)
    simpa [joinLoop] using ih fun e he => h e (List.mem_cons_of_mem _ he)

/-- Reduction of one interrupt-handling timeout iteration (interrupt observed,
latch not yet set). -/
theorem joinLoop_timeout_intr (fl : Nat) (nm : String) (code : Nat)
    (acc : List JoinAction) (pid : Nat) (evs : List WaitEvent) :
    joinLoop fl nm code false acc (WaitEvent.timeout true pid :: evs)
      = if hasFlag fl terminate_on_interrupt then
          ⟨JoinOutcome.ok, code, (JoinAction.terminate :: acc).reverse, false⟩
        else if pid = 0 then
          ⟨JoinOutcome.ok, code, (JoinAction.terminate :: acc).reverse, false⟩
        else joinLoop fl nm code true (JoinAction.ctrlBreak pid :: acc) evs :=
  rfl

/-- A timeout iteration in which no interrupt action is due just keeps
polling. -/
theorem joinLoop_timeout_skip (fl : Nat) (nm : String) (code : Nat) (b : Bool)
    (acc : List JoinAction) (intr : Bool) (pid : Nat) (evs : List WaitEvent)
    (h : (intr && !b) = false) :
    joinLoop fl nm code b acc (WaitEvent.timeout intr pid :: evs)
      = joinLoop fl nm code b acc evs := by
  simp [joinLoop, h]

/-- Once the local `interrupted` latch is set, the loop never emits another
break signal; before it is set, it emits at most one. -/
theorem joinLoop_breaks_le (fl : Nat) (nm : String) (code : Nat) (b : Bool)
    (acc : List JoinAction) (evs : List WaitEvent) :
    countBreaks (joinLoop fl nm code b acc evs).actions
      ≤ countBreaks acc + (if b then 0 else 1) := by
  induction evs generalizing b acc with
  | nil => simp [joinLoop, countBreaks_reverse]
  | cons e evs ih =>
    cases e with
    | object0 ec intr =>
      by_cases hi : intr = true <;>
        by_cases hc : ec = 0 <;>
        by_cases ha : hasFlag fl allow_failure = true <;>
        simp [joinLoop, hi, hc, ha, countBreaks_reverse]
    | timeout intr pid =>
      by_cases hg : (intr && !b) = true
      · have hb : b = false := by cases b <;> simp_all
        have hi : intr = true := by cases intr <;> simp_all
        subst hb
        subst hi
        rw [joinLoop_timeout_intr]
        by_cases ht : hasFlag fl terminate_on_interrupt = true
        · rw [if_pos ht]
          simp [List.reverse_cons, countBreaks_append, countBreaks,
            countBreaks_reverse]
        · rw [if_neg ht]
          by_cases hp : pid = 0
          · rw [if_pos hp]
            simp [List.reverse_cons, countBreaks_append, countBreaks,
              countBreaks_reverse]
          · rw [if_neg hp]
            have h2 := ih true (JoinAction.ctrlBreak pid :: acc)
            simp only [countBreaks, if_true] at h2
            simpa using h2
      · have hg' : (intr && !b) = false := by simpa using hg
        rw [joinLoop_timeout_skip fl nm code b acc intr pid evs hg']
        exact ih b acc
    | failed e =>
      simp [joinLoop, countBreaks_reverse]

/-- A join-loop trace with no child-exit event leaves `code_` at its initial
value. -/
theorem joinLoop_code_no_exit (fl : Nat) (nm : String) (code : Nat) (b : Bool)
    (acc : List JoinAction) (evs : List WaitEvent)
    (h : ∀ e ∈ evs, ∀ ec i, e ≠ WaitEvent.object0 ec i) :
    (joinLoop fl nm code b acc evs).code = code := by
  induction evs generalizing b acc with
  | nil => rfl
  | cons e evs ih =>
    cases e with
    | object0 ec intr =>
      exact absurd rfl (h _ (List.mem_cons_self _ _) ec intr)
    | timeout intr pid =>
      have ht := fun e he => h e (List.mem_cons_of_mem _ he)
      by_cases hg : (intr && !b) = true <;>
        simp only [joinLoop, hg, if_true, if_false, Bool.false_eq_true] <;>
        [skip; exact ih b acc ht]
      by_cases h1 : hasFlag fl terminate_on_interrupt = true
      · simp [h1]
      · by_cases hp : pid = 0
        · simp [h1, hp]
        · simp only [h1, hp, if_neg, Bool.false_eq_true, not_false_eq_true,
            if_false]
          exact ih true _ ht
    | failed e => rfl

/-! ## Claims -/

/--
C2 (code bug): for three specs with resolved command texts `"a"`, `"b"`,
`"c"`, the source's variadic `pipe` yields resolved command text `"a | b"`,
dropping the third stage, because the recursive call's result is discarded;
the composition the spec describes yields `"a | b | c"`, which differs.
-/
theorem pipe_three_stages_drops_third :
    (process.pipe (process.raw "a")
        [process.raw "b", process.raw "c"]).make_cmd = "a | b" ∧
    (pipeSpec (process.raw "a")
        [process.raw "b", process.raw "c"]).make_cmd = "a | b | c" ∧
    ("a | b" : String) ≠ "a | b | c" :=
  ⟨by decide, by decide, by decide⟩

/--
C7: argument rendering. `arg("--stagedir=", path)` appends the fragment
`--stagedir="<path>"` — path quoted, no space after `=`; `arg("--with",
"thread")` appends `--with thread` with a single separating space; a
`quiet`-tagged fragment is dropped exactly when the verbose-logging switch is
on, and a `verbose`-tagged fragment exactly when it is off (the hypothesis
excludes the vacuous empty-text fragment, which `add_arg` always drops).
-/
theorem arg_rendering (p : process) (pth : String) (lt : Bool) (v : ArgValue)
    (hv : arg_to_string v false ≠ "") :
    (process.arg2 lt p "--stagedir=" (ArgValue.path pth) noargflags).cmd_
        = p.cmd_ ++ " --stagedir=\"" ++ pth ++ "\"" ∧
    (process.arg2 lt p "--with" (ArgValue.str "thread") noargflags).cmd_
        = p.cmd_ ++ " --with thread" ∧
    process.arg1 true p v quiet = p ∧
    (process.arg1 false p v quiet).cmd_
        = p.cmd_ ++ " " ++ arg_to_string v false ∧
    (process.arg1 true p v verbose).cmd_
        = p.cmd_ ++ " " ++ arg_to_string v false ∧
    process.arg1 false p v verbose = p := by
  have hnv : hasArgFlag noargflags verbose = false := rfl
  have hnq : hasArgFlag noargflags quiet = false := rfl
  have hnn : hasArgFlag noargflags nospace = false := rfl
  have hnqt : hasArgFlag noargflags quote = false := rfl
  have hqv : hasArgFlag quiet verbose = false := rfl
  have hqq : hasArgFlag quiet quiet = true := rfl
  have hqn : hasArgFlag quiet nospace = false := rfl
  have hqqt : hasArgFlag quiet quote = false := rfl
  have hvv : hasArgFlag verbose verbose = true := rfl
  have hvq : hasArgFlag verbose quiet = false := rfl
  have hvn : hasArgFlag verbose nospace = false := rfl
  have hvqt : hasArgFlag verbose quote = false := rfl
  refine ⟨?_, ?_, ?_, ?_, ?_, ?_⟩
  · simp only [process.arg2, process.add_arg, arg_to_string, hnv, hnq, hnn,
      hnqt, Bool.false_and, Bool.false_or, Bool.and_false]
    simp [show ("--stagedir=" : String) ≠ "" by decide,
      show ("--stagedir=" : String).back = '=' by decide]
    simp only [String.append_assoc]
    rw [← String.append_assoc " ", ← String.append_assoc (" " ++ "--stagedir=")]
    rfl
  · simp only [process.arg2, process.add_arg, arg_to_string, hnv, hnq, hnn,
      hnqt, Bool.false_and, Bool.false_or, Bool.and_false]
    simp [show ("--with" : String) ≠ "" by decide,
      show ¬(("--with" : String).back = '=') by decide]
    simp only [String.append_assoc]
    rw [← String.append_assoc " ", ← String.append_assoc (" " ++ "--with")]
    rfl
  · simp [process.arg1, process.add_arg, hqv, hqq, hqn, hqqt]
  · simp [process.arg1, process.add_arg, hqv, hqq, hqn, hqqt, hv]
  · simp [process.arg1, process.add_arg, hvv, hvq, hvn, hvqt, hv]
  · simp [process.arg1, process.add_arg, hvv, hvq, hvn, hvqt]

/-- Witness for C7 at a concrete path, value and switch setting. -/
theorem arg_rendering_witness :
    (process.arg2 false { cmd_ := "" } "--stagedir="
        (ArgValue.path "C:\\s") noargflags).cmd_ = " --stagedir=\"C:\\s\"" ∧
    process.arg1 true { cmd_ := "" } (ArgValue.str "-d") quiet
      = { cmd_ := "" } := by
  have h := arg_rendering { cmd_ := "" } "C:\\s" false (ArgValue.str "-d")
    (by decide)
  exact ⟨h.1, h.2.2.1⟩

/--
C1: the exit-code policy.  For a process whose interrupt flag is never
observed set, after any number of poll timeouts the child's terminal exit is
judged: exit code 0 ends `join()` successfully; a nonzero code with
`allow_failure` lets `join()` return normally with `exit_code()` reporting
that code; a nonzero code without `allow_failure` makes `join()` fail fatally
with the message `<process name> returned <code>`, naming the process and the
exact code.
-/
theorem join_exit_code_policy (p : process) (pre rest : List WaitEvent)
    (ec : Nat) (hh : p.handle = true)
    (hpre : ∀ e ∈ pre, ∃ pid, e = WaitEvent.timeout false pid) :
    (ec = 0 →
      (p.join (pre ++ WaitEvent.object0 ec false :: rest)).1.outcome
        = JoinOutcome.ok) ∧
    (ec ≠ 0 → hasFlag p.flags_ allow_failure = true →
      (p.join (pre ++ WaitEvent.object0 ec false :: rest)).1.outcome
          = JoinOutcome.ok ∧
        (p.join (pre ++ WaitEvent.object0 ec false :: rest)).2.code_ = ec ∧
        (ec < 2 ^ 31 →
          (p.join (pre ++ WaitEvent.object0 ec false :: rest)).2.exit_code
            = ec)) ∧
    (ec ≠ 0 → hasFlag p.flags_ allow_failure = false →
      (p.join (pre ++ WaitEvent.object0 ec false :: rest)).1.outcome
        = JoinOutcome.fatal (p.make_name ++ " returned " ++ toString ec)) := by
  have hred := joinLoop_skip_quiet_timeouts p.flags_ p.make_name p.code_ false
    [] pre (WaitEvent.object0 ec false :: rest) hpre
  refine ⟨?_, ?_, ?_⟩
  · intro h0
    subst h0
    simp [process.join, hh, hred, joinLoop]
  · intro hne ha
    constructor
    · simp [process.join, hh, hred, joinLoop, hne, ha]
    constructor
    · simp [process.join, hh, hred, joinLoop, hne, ha]
    · intro h31
      have hlt : toInt32 ec = ec := by
        unfold toInt32
        rw [Nat.mod_eq_of_lt (by omega : ec < 2 ^ 32)]
        rw [if_pos h31]
      simp [process.join, hh, hred, joinLoop, hne, ha, process.exit_code, hlt]
  · intro hne ha
    simp [process.join, hh, hred, joinLoop, hne, ha]

/-- Witness for C1: default flags (no `allow_failure`), child exits 7 —
fatal with the rendered name (`"<empty binary>"`) and the exact code. -/
theorem join_exit_code_policy_witness :
    (({ handle := true } : process).join [WaitEvent.object0 7 false]).1.outcome
      = JoinOutcome.fatal "\"\" returned 7" := by
  have h := join_exit_code_policy { handle := true } [] [] 7 rfl (by simp)
  exact h.2.2 (by decide) (by decide)

/--
C3: with `terminate_on_interrupt` set, once the interrupt flag is observed at
a poll timeout, `join()` forcibly kills the child and returns at once: the
remaining trace (whatever exit code the child would have produced, 0
included) is never consumed and the exit-code policy is never evaluated.
-/
theorem join_terminate_on_interrupt (p : process) (pre rest : List WaitEvent)
    (pid : Nat) (hh : p.handle = true)
    (ht : hasFlag p.flags_ terminate_on_interrupt = true)
    (hpre : ∀ e ∈ pre, ∃ q, e = WaitEvent.timeout false q) :
    (p.join (pre ++ WaitEvent.timeout true pid :: rest)).1.outcome
        = JoinOutcome.ok ∧
    (p.join (pre ++ WaitEvent.timeout true pid :: rest)).1.actions
        = [JoinAction.terminate] ∧
    (p.join (pre ++ WaitEvent.timeout true pid :: rest)).1.policyEvaluated
        = false := by
  have hred := joinLoop_skip_quiet_timeouts p.flags_ p.make_name p.code_ false
    [] pre (WaitEvent.timeout true pid :: rest) hpre
  refine ⟨?_, ?_, ?_⟩ <;>
    simp [process.join, hh, hred, joinLoop_timeout_intr, ht]

/-- Witness for C3: interrupt observed at the first poll, child would have
exited 0 right after — the child is killed anyway. -/
theorem join_terminate_on_interrupt_witness :
    (({ flags_ := terminate_on_interrupt, handle := true } : process).join
        [WaitEvent.timeout true 42, WaitEvent.object0 0 true]).1.actions
      = [JoinAction.terminate] :=
  (join_terminate_on_interrupt
    { flags_ := terminate_on_interrupt, handle := true } []
    [WaitEvent.object0 0 true] 42 rfl rfl (by simp)).2.1

/--
C4: without `terminate_on_interrupt`, a single `join()` call sends the
graceful break signal at most once, however many poll timeouts (with the
interrupt flag set) follow before the child exits.
-/
theorem join_break_at_most_once (p : process) (events : List WaitEvent)
    (_ht : hasFlag p.flags_ terminate_on_interrupt = false) :
    countBreaks (p.join events).1.actions ≤ 1 := by
  by_cases hh : p.handle = false
  · simp [process.join, hh, countBreaks]
  · have h1 : (p.join events).1
        = joinLoop p.flags_ p.make_name p.code_ false [] events := by
      simp [process.join, hh]
    rw [h1]
    have h := joinLoop_breaks_le p.flags_ p.make_name p.code_ false [] events
    simpa [countBreaks] using h

/-- Witness for C4: three interrupt-flagged timeouts before the exit, one
break signal. -/
theorem join_break_at_most_once_witness :
    countBreaks ((({ handle := true } : process).join
        [WaitEvent.timeout true 9, WaitEvent.timeout true 9,
          WaitEvent.timeout true 9, WaitEvent.object0 0 true]).1.actions)
      ≤ 1 :=
  join_break_at_most_once { handle := true }
    [WaitEvent.timeout true 9, WaitEvent.timeout true 9,
      WaitEvent.timeout true 9, WaitEvent.object0 0 true] rfl

/--
C5: at most one outstanding read request.  A `read()` on a non-pending
channel whose read request cannot complete immediately returns empty and
marks the channel pending, having issued exactly one request; any `read()`
on a pending channel that returns issues no new read request and performs
one wait on the completion signal instead.
-/
theorem read_single_outstanding (pp pq : async_pipe) (rf : ReadFileRes)
    (w w2 : WaitRes) (g g2 : OverlappedRes) (out : ReadOutcome)
    (h : pp.pending_ = false) (h2 : pq.pending_ = true) :
    pp.read ReadFileRes.ioPending w g
      = Except.ok ⟨"", { pp with pending_ := true }, 1, 0⟩ ∧
    (pq.read rf w2 g2 = Except.ok out →
      out.readRequests = 0 ∧ out.waits = 1) := by
  constructor
  · simp [async_pipe.read, h, async_pipe.try_read]
  · intro hok
    cases w2 <;> cases g2 <;>
      simp [async_pipe.read, h2, async_pipe.check_pending,
        WaitRes.isFailed] at hok <;>
      simp [← hok]

/-- Witness for C5: a first `read()` goes pending; a second completes the
check without a new request. -/
theorem read_single_outstanding_witness :
    (⟨false⟩ : async_pipe).read ReadFileRes.ioPending WaitRes.object0
        OverlappedRes.ioIncomplete
      = Except.ok ⟨"", ⟨true⟩, 1, 0⟩ ∧
    ((⟨"", ⟨true⟩, 0, 1⟩ : ReadOutcome).readRequests = 0 ∧
      (⟨"", ⟨true⟩, 0, 1⟩ : ReadOutcome).waits = 1) := by
  have h := read_single_outstanding ⟨false⟩ ⟨true⟩ ReadFileRes.ioPending
    WaitRes.object0 WaitRes.timeout OverlappedRes.ioIncomplete
    OverlappedRes.ioIncomplete ⟨"", ⟨true⟩, 0, 1⟩ rfl rfl
  exact ⟨h.1, h.2 rfl⟩

/--
C6: a broken-channel condition (`ERROR_BROKEN_PIPE`) makes `read()` return an
empty result without error, in both the fresh-read and the pending-completion
paths; any other unexpected OS error — in the read itself, in the completion
poll, or in the wait on the completion signal — is fatal.
-/
theorem read_broken_pipe_policy (pp pq : async_pipe) (rf : ReadFileRes)
    (w : WaitRes) (g : OverlappedRes) (e : Nat)
    (hp : pp.pending_ = false) (hq : pq.pending_ = true)
    (hw : w.isFailed = false) :
    pp.read ReadFileRes.brokenPipe w g = Except.ok ⟨"", pp, 1, 0⟩ ∧
    pq.read rf w OverlappedRes.brokenPipe = Except.ok ⟨"", pq, 0, 1⟩ ∧
    pp.read (ReadFileRes.otherError e) w g
      = Except.error "async_pipe read failed" ∧
    pq.read rf w (OverlappedRes.otherError e)
      = Except.error "GetOverlappedResult failed in async_pipe" ∧
    pq.read rf (WaitRes.failed e) g
      = Except.error "WaitForSingleObject in async_pipe failed" := by
  refine ⟨?_, ?_, ?_, ?_, ?_⟩
  · simp [async_pipe.read, hp, async_pipe.try_read]
  · simp [async_pipe.read, hq, async_pipe.check_pending, hw]
  · simp [async_pipe.read, hp, async_pipe.try_read]
  · simp [async_pipe.read, hq, async_pipe.check_pending, hw]
  · simp [async_pipe.read, hq, async_pipe.check_pending, WaitRes.isFailed]

/-- Witness for C6 at concrete channel states and oracle outcomes. -/
theorem read_broken_pipe_policy_witness :
    (⟨false⟩ : async_pipe).read ReadFileRes.brokenPipe WaitRes.timeout
        OverlappedRes.ioIncomplete
      = Except.ok ⟨"", ⟨false⟩, 1, 0⟩ ∧
    (⟨true⟩ : async_pipe).read ReadFileRes.brokenPipe (WaitRes.failed 87)
        OverlappedRes.ioIncomplete
      = Except.error "WaitForSingleObject in async_pipe failed" := by
  have h := read_broken_pipe_policy ⟨false⟩ ⟨true⟩ ReadFileRes.brokenPipe
    WaitRes.timeout OverlappedRes.ioIncomplete 87 rfl rfl rfl
  exact ⟨h.1, h.2.2.2.2⟩

/--
C8: with the dry-run switch set, `run()` logs the working-directory change
(when a cwd is configured) and the resolved command, spawns no child, and
leaves the supervisor without a child handle, so a subsequent `join()`
returns immediately as a no-op without failing.
-/
theorem dry_run_no_spawn (p : process) (comspec : String) (spawn_ok : Bool)
    (pid : Nat) (events : List WaitEvent) (hh : p.handle = false) :
    p.run true comspec spawn_ok pid
      = Except.ok
          ⟨(if p.cwd_ ≠ "" then
              [⟨Reason.cmd, Level.debug, "> cd " ++ p.cwd_⟩] else [])
            ++ [⟨Reason.cmd, Level.debug, "> " ++ p.make_cmd⟩], false, p⟩ ∧
    p.join events = (⟨JoinOutcome.ok, p.code_, [], false⟩, p) := by
  constructor
  · simp [process.run]
  · simp [process.join, hh]

/-- Witness for C8: a raw command under dry-run. -/
theorem dry_run_no_spawn_witness :
    (process.raw "echo hi").run true "cmd.exe" true 3
      = Except.ok ⟨[⟨Reason.cmd, Level.debug, "> echo hi"⟩], false,
          process.raw "echo hi"⟩ ∧
    (process.raw "echo hi").join [WaitEvent.failed 6]
      = (⟨JoinOutcome.ok, 0, [], false⟩, process.raw "echo hi") :=
  dry_run_no_spawn (process.raw "echo hi") "cmd.exe" true 3
    [WaitEvent.failed 6] rfl

/--
C9: destruction performs an implicit `join()` and discards any fatal error it
raises: `destruct` always succeeds, for every process state and every trace —
including ones (such as a failed wait on a live handle) on which `join()`
itself is fatal.
-/
theorem destruct_never_propagates :
    (∀ (p : process) (events : List WaitEvent),
      p.destruct events = Except.ok ()) ∧
    (({ handle := true } : process).join [WaitEvent.failed 5]).1.outcome
      = JoinOutcome.fatal "failed to wait on process" := by
  constructor
  · intro p events
    unfold process.destruct
    cases (p.join events).1.outcome <;> rfl
  · decide

/--
C10: `exit_code()` before any terminal state reports 0: construction
initialises the stored code to 0, `run()` (dry or not) never writes it, a
`join()` without a child handle never writes it, and the join loop writes it
only upon a child-exit event.
-/
theorem exit_code_zero_before_terminal :
    process.init.exit_code = 0 ∧
    (∀ (dry : Bool) (comspec : String) (sok : Bool) (pid : Nat) (p : process)
        (r : RunResult), p.run dry comspec sok pid = Except.ok r →
      r.post.code_ = p.code_) ∧
    (∀ (p : process) (events : List WaitEvent), p.handle = false →
      (p.join events).2.code_ = p.code_) ∧
    (∀ (fl : Nat) (nm : String) (code : Nat) (b : Bool)
        (acc : List JoinAction) (evs : List WaitEvent),
      (∀ e ∈ evs, ∀ ec i, e ≠ WaitEvent.object0 ec i) →
      (joinLoop fl nm code b acc evs).code = code) := by
  refine ⟨by decide, ?_, ?_, ?_⟩
  · intro dry comspec sok pid p r h
    cases dry <;> cases sok <;> simp [process.run] at h <;> rw [← h]
  · intro p events hh
    simp [process.join, hh]
  · exact joinLoop_code_no_exit

/-- Witness for C10: a handle-less `join()` leaves the stored code at 0. -/
theorem exit_code_zero_before_terminal_witness :
    (process.init.join [WaitEvent.timeout false 0]).2.code_ = 0 :=
  exit_code_zero_before_terminal.2.2.1 process.init
    [WaitEvent.timeout false 0] rfl

end mob
